import Mathlib

/-!
Shallow embedding of the sovereign_watch ETL pipeline
(`src/lib/etl/sanitizers.ts`, `src/lib/etl/aggregators.ts`,
`src/lib/etl/treasury-client.ts`, and the API route handlers), together
with proofs about the embedded functions.

Conventions of the embedding:
* JavaScript numbers are modelled as rationals (`ℚ`); timestamps and
  calendar years as integers (`ℤ`).  `NaN` is modelled by `Option`:
  a parser that would yield `NaN` yields `none`.
* JavaScript strings are `String`; values that may be `null`/`undefined`
  are `Option String`, with JS truthiness made explicit at each use.
* `parseFloat`/`parseInt` are modelled on decimal literals
  (sign, digits, decimal point, exponent), the grammar actually exercised
  by the fiscal-data feeds; non-numeric prefixes yield `none` (JS `NaN`).
-/

namespace SovereignWatch

/-! ## JS string primitives -/

/-- Whitespace characters recognised by the embedding of `\s` / `trim`. -/
def isWsChar (c : Char) : Bool :=
  c = ' ' || c = '\t' || c = '\n' || c = '\r' || c.toNat = 11 || c.toNat = 12

/-- ASCII decimal digit test. -/
def isDigitChar (c : Char) : Bool :=
  48 ≤ c.toNat && c.toNat ≤ 57

/-- Numeric value of a digit character. -/
def digitVal (c : Char) : Nat := c.toNat - 48

/-- Value of a digit string, most significant first. -/
def digitsVal (l : List Char) : Nat :=
  l.foldl (fun acc c => 10 * acc + digitVal c) 0

/-- ASCII lower-casing, the fragment of `toLowerCase` the feeds exercise. -/
def lowerChar (c : Char) : Char :=
  if 65 ≤ c.toNat ∧ c.toNat ≤ 90 then Char.ofNat (c.toNat + 32) else c

/-- Lower-case a character list. -/
def lowerStr (l : List Char) : List Char := l.map lowerChar

/-- Embedding of `String.prototype.includes` over character lists. -/
def hasInfix : List Char → List Char → Bool
  | [], pat => pat.isEmpty
  | c :: rest, pat => pat.isPrefixOf (c :: rest) || hasInfix rest pat

/-- `trim`: drop leading and trailing whitespace. -/
def jsTrim (l : List Char) : List Char :=
  ((l.dropWhile isWsChar).reverse.dropWhile isWsChar).reverse

/-- JS truthiness of a nullable string: `null`/`undefined` and `""` are falsy. -/
def strFalsy (v : Option String) : Bool :=
  match v with
  | none => true
  | some s => s.data.isEmpty

/-- `a || b` for nullable strings: keep `a` when truthy, else `b`. -/
def jsOrStr (a b : Option String) : Option String :=
  if strFalsy a then b else a

/-! ## JS number parsing (`parseFloat` / `parseInt`) -/

/-- Split off the longest digit prefix. -/
def spanDigits (l : List Char) : List Char × List Char :=
  (l.takeWhile isDigitChar, l.dropWhile isDigitChar)

/-- Mantissa value of integer part `ip` and fraction part `fp`. -/
def mantissaVal (ip fp : List Char) : ℚ :=
  (digitsVal ip : ℚ) + (digitsVal fp : ℚ) / (10 : ℚ) ^ fp.length

/-- Parse an optional exponent suffix (`e`/`E`, optional sign, digits);
a malformed exponent is ignored, as `parseFloat` takes the longest valid
prefix. -/
def expVal (l : List Char) : ℤ :=
  match l with
  | 'e' :: rest =>
      (match rest with
       | '-' :: r2 => (match spanDigits r2 with
                       | ([], _) => 0
                       | (ds, _) => -(digitsVal ds : ℤ))
       | '+' :: r2 => (match spanDigits r2 with
                       | ([], _) => 0
                       | (ds, _) => (digitsVal ds : ℤ))
       | _ => (match spanDigits rest with
               | ([], _) => 0
               | (ds, _) => (digitsVal ds : ℤ)))
  | 'E' :: rest =>
      (match rest with
       | '-' :: r2 => (match spanDigits r2 with
                       | ([], _) => 0
                       | (ds, _) => -(digitsVal ds : ℤ))
       | '+' :: r2 => (match spanDigits r2 with
                       | ([], _) => 0
                       | (ds, _) => (digitsVal ds : ℤ))
       | _ => (match spanDigits rest with
               | ([], _) => 0
               | (ds, _) => (digitsVal ds : ℤ)))
  | _ => 0

/-- Parse an unsigned decimal literal prefix: digits, optional fraction,
optional exponent; `none` when no digit is present (JS `NaN`). -/
def parseUnsigned (l : List Char) : Option ℚ :=
  match spanDigits l with
  | (ip, rest) =>
      match rest with
      | '.' :: r2 =>
          (match spanDigits r2 with
           | (fp, r3) =>
               if ip.isEmpty ∧ fp.isEmpty then none
               else some (mantissaVal ip fp * (10 : ℚ) ^ expVal r3))
      | _ =>
          if ip.isEmpty then none
          else some (mantissaVal ip [] * (10 : ℚ) ^ expVal rest)

/-- `parseFloat` on a character list: skip whitespace, optional sign,
unsigned literal. -/
def jsParseFloatL (l : List Char) : Option ℚ :=
  match l.dropWhile isWsChar with
  | '-' :: rest => (parseUnsigned rest).map (fun q => -q)
  | '+' :: rest => parseUnsigned rest
  | rest => parseUnsigned rest

/-- `parseFloat` on a string. -/
def jsParseFloat (s : String) : Option ℚ :=
  jsParseFloatL s.data

/-- `parseInt(s, 10)`: skip whitespace, optional sign, digit prefix;
`none` when no digit is present (JS `NaN`). -/
def jsParseIntL (l : List Char) : Option ℤ :=
  match l.dropWhile isWsChar with
  | '-' :: rest => (match spanDigits rest with
                    | ([], _) => none
                    | (ds, _) => some (-(digitsVal ds : ℤ)))
  | '+' :: rest => (match spanDigits rest with
                    | ([], _) => none
                    | (ds, _) => some (digitsVal ds : ℤ))
  | rest => (match spanDigits rest with
             | ([], _) => none
             | (ds, _) => some (digitsVal ds : ℤ))

/-- `parseInt(s, 10)` on a string. -/
def jsParseInt (s : String) : Option ℤ :=
  jsParseIntL s.data

/-! ## Sanitizers (`src/lib/etl/sanitizers.ts`) -/

/-- Shared sentinel guard of `parseAmount`/`parseNumber`:
`!value || value === 'N/A' || value === 'null' || value.trim() === ''`. -/
def amountGuard (v : Option String) : Bool :=
  match v with
  | none => true
  | some s => s.data.isEmpty || s = "N/A" || s = "null" || (jsTrim s.data).isEmpty

/-- `parseAmount`: sentinel guard, strip `[,\s$]`, then `parseFloat`. -/
def parseAmount (v : Option String) : Option ℚ :=
  if amountGuard v then none
  else match v with
       | none => none
       | some s =>
           jsParseFloatL (s.data.filter (fun c => !(c = ',' || c = '$' || isWsChar c)))

/-- `parseNumber`: sentinel guard, then bare `parseFloat`. -/
def parseNumber (v : Option String) : Option ℚ :=
  if amountGuard v then none
  else match v with
       | none => none
       | some s => jsParseFloatL s.data

/-- Days per month, as enforced by ISO `Date` parsing. -/
def daysInMonth (y : ℤ) (m : Nat) : Nat :=
  if m = 2 then (if (y % 4 = 0 ∧ y % 100 ≠ 0) ∨ y % 400 = 0 then 29 else 28)
  else if m = 4 ∨ m = 6 ∨ m = 9 ∨ m = 11 then 30 else 31

/-- Validity of a date-only ISO string `YYYY-MM-DD`, the round-trip fragment
of `new Date(s)` / `toISOString` that the fiscal-data feeds exercise; any
other shape is modelled as an invalid date. -/
def isValidIsoDate (l : List Char) : Bool :=
  match l with
  | [y1, y2, y3, y4, h1, m1, m2, h2, d1, d2] =>
      isDigitChar y1 && isDigitChar y2 && isDigitChar y3 && isDigitChar y4 &&
      h1 = '-' && h2 = '-' &&
      isDigitChar m1 && isDigitChar m2 && isDigitChar d1 && isDigitChar d2 &&
      (let m := digitsVal [m1, m2]
       let d := digitsVal [d1, d2]
       let y : ℤ := (digitsVal [y1, y2, y3, y4] : ℤ)
       decide (1 ≤ m) && decide (m ≤ 12) && decide (1 ≤ d) &&
       decide (d ≤ daysInMonth y m))
  | _ => false

/-- `normalizeDate`: sentinel guard (`!s`, `'N/A'`, blank), then parse and
re-serialise; on the modelled ISO `YYYY-MM-DD` fragment re-serialisation is
the identity, and invalid dates yield `null`. -/
def normalizeDate (v : Option String) : Option String :=
  match v with
  | none => none
  | some s =>
      if s.data.isEmpty then none
      else if s = "N/A" then none
      else if (jsTrim s.data).isEmpty then none
      else if isValidIsoDate s.data then some s
      else none

/-- `extractYear`: `parseInt(normalized.substring(0, 4), 10)`, `null` when
the date itself does not normalise. -/
def extractYear (v : Option String) : Option ℤ :=
  match normalizeDate v with
  | none => none
  | some s => jsParseIntL (s.data.take 4)

/-- Closed security-type enumeration of `CleanedSecurity`. -/
inductive SecurityType where
  | BILL | NOTE | BOND | TIPS | FRN | OTHER
  deriving DecidableEq, Repr

/-- Closed security-type enumeration of `CleanedAuction`. -/
inductive AuctionSecurityType where
  | BILL | NOTE | BOND | TIPS | FRN | CMB
  deriving DecidableEq, Repr

/-- `desc.toLowerCase().includes(pat)` for a lower-cased pattern. -/
def includesSub (text : List Char) (pat : String) : Bool :=
  hasInfix text pat.data

/-- `normalizeSecurityType`, exactly as in the source: falsy input is
`OTHER`; then case-insensitive substring rules in source order (bill,
tips/inflation, floating/frn, note, bond), default `OTHER`. -/
def normalizeSecurityType (desc : Option String) : SecurityType :=
  if strFalsy desc then .OTHER
  else match desc with
       | none => .OTHER
       | some s =>
           let lower := lowerStr s.data
           if includesSub lower "bill" then .BILL
           else if includesSub lower "tips" || includesSub lower "inflation" then .TIPS
           else if includesSub lower "floating" || includesSub lower "frn" then .FRN
           else if includesSub lower "note" then .NOTE
           else if includesSub lower "bond" then .BOND
           else .OTHER

/-- `normalizeAuctionSecurityType`, exactly as in the source: falsy input is
`NOTE`; rules in source order (bill, tips/inflation, floating/frn,
cmb/cash management, bond, note), default `NOTE`. -/
def normalizeAuctionSecurityType (ty : Option String) : AuctionSecurityType :=
  if strFalsy ty then .NOTE
  else match ty with
       | none => .NOTE
       | some s =>
           let lower := lowerStr s.data
           if includesSub lower "bill" then .BILL
           else if includesSub lower "tips" || includesSub lower "inflation" then .TIPS
           else if includesSub lower "floating" || includesSub lower "frn" then .FRN
           else if includesSub lower "cmb" || includesSub lower "cash management" then .CMB
           else if includesSub lower "bond" then .BOND
           else if includesSub lower "note" then .NOTE
           else .NOTE

/-! ## Raw and cleaned records -/

/-- Raw MSPD security record: every field an untyped, nullable string. -/
structure RawMarketSecurityRecord where
  record_date : Option String := none
  cusip : Option String := none
  security_type_desc : Option String := none
  security_class : Option String := none
  issue_date : Option String := none
  maturity_date : Option String := none
  outstanding_amt : Option String := none
  interest_rate : Option String := none
  deriving Repr, DecidableEq

/-- Raw auction record. -/
structure RawAuctionRecord where
  auction_date : Option String := none
  issue_date : Option String := none
  maturity_date : Option String := none
  security_type : Option String := none
  security_term : Option String := none
  cusip : Option String := none
  bid_to_cover_ratio : Option String := none
  high_yield : Option String := none
  high_discount_rate : Option String := none
  offering_amt : Option String := none
  accepted_amt : Option String := none
  total_tendered : Option String := none
  direct_bidder_accepted_amt : Option String := none
  indirect_bidder_accepted_amt : Option String := none
  primary_dealer_accepted_amt : Option String := none
  deriving Repr, DecidableEq

/-- Raw debt-to-the-penny record. -/
structure RawDebtRecord where
  record_date : Option String := none
  tot_pub_debt_out_amt : Option String := none
  debt_held_public_amt : Option String := none
  intragov_hold_amt : Option String := none
  deriving Repr, DecidableEq

/-- Cleaned security record. -/
structure CleanedSecurity where
  recordDate : Option String
  cusip : Option String
  securityType : SecurityType
  securityTypeDesc : String
  securityClass : Option String
  issueDate : Option String
  maturityDate : Option String
  maturityYear : Option ℤ
  outstandingAmount : ℚ
  interestRate : Option ℚ
  deriving Repr, DecidableEq

/-- Cleaned auction record. -/
structure CleanedAuction where
  auctionDate : Option String
  issueDate : Option String
  maturityDate : Option String
  securityType : AuctionSecurityType
  securityTypeRaw : String
  securityTerm : Option String
  cusip : Option String
  bidToCoverRatio : Option ℚ
  highYield : Option ℚ
  highDiscountRate : Option ℚ
  offeringAmount : Option ℚ
  acceptedAmount : Option ℚ
  totalTendersAccepted : Option ℚ
  directBidderAccepted : Option ℚ
  indirectBidderAccepted : Option ℚ
  primaryDealerAccepted : Option ℚ
  deriving Repr, DecidableEq

/-- Cleaned daily debt snapshot. -/
structure CleanedDebtSnapshot where
  recordDate : Option String
  totalPublicDebt : ℚ
  debtHeldByPublic : Option ℚ
  intragovernmentalHoldings : Option ℚ
  deriving Repr, DecidableEq

/-- `raw.x || null`: empty string degrades to `null`. -/
def jsOrNull (v : Option String) : Option String :=
  if strFalsy v then none else v

/-- `raw.x || ''`. -/
def jsOrEmpty (v : Option String) : String :=
  match v with
  | none => ""
  | some s => if s.data.isEmpty then "" else s

/-- `cleanSecurityRecord`: drops the record when the outstanding amount is
unparseable or non-positive, otherwise builds the cleaned projection. -/
def cleanSecurityRecord (raw : RawMarketSecurityRecord) : Option CleanedSecurity :=
  match parseAmount raw.outstanding_amt with
  | none => none
  | some outstandingAmount =>
      if outstandingAmount ≤ 0 then none
      else some
        { recordDate := jsOrStr (normalizeDate raw.record_date) raw.record_date
          cusip := jsOrNull raw.cusip
          securityType := normalizeSecurityType raw.security_type_desc
          securityTypeDesc := jsOrEmpty raw.security_type_desc
          securityClass := jsOrNull raw.security_class
          issueDate := normalizeDate raw.issue_date
          maturityDate := normalizeDate raw.maturity_date
          maturityYear := extractYear raw.maturity_date
          outstandingAmount := outstandingAmount
          interestRate := parseNumber raw.interest_rate }

/-- `cleanAuctionRecord`: drops the record when the bid-to-cover ratio is
unparseable, otherwise builds the cleaned projection. -/
def cleanAuctionRecord (raw : RawAuctionRecord) : Option CleanedAuction :=
  match parseNumber raw.bid_to_cover_ratio with
  | none => none
  | some bidToCoverRatio =>
      some
        { auctionDate := jsOrStr (normalizeDate raw.auction_date) raw.auction_date
          issueDate := normalizeDate raw.issue_date
          maturityDate := normalizeDate raw.maturity_date
          securityType := normalizeAuctionSecurityType raw.security_type
          securityTypeRaw := jsOrEmpty raw.security_type
          securityTerm := jsOrNull raw.security_term
          cusip := jsOrNull raw.cusip
          bidToCoverRatio := some bidToCoverRatio
          highYield := parseNumber raw.high_yield
          highDiscountRate := parseNumber raw.high_discount_rate
          offeringAmount := parseAmount raw.offering_amt
          acceptedAmount := parseAmount raw.accepted_amt
          totalTendersAccepted := parseAmount raw.total_tendered
          directBidderAccepted := parseAmount raw.direct_bidder_accepted_amt
          indirectBidderAccepted := parseAmount raw.indirect_bidder_accepted_amt
          primaryDealerAccepted := parseAmount raw.primary_dealer_accepted_amt }

/-- `cleanDebtRecord`: drops the record when the total debt is unparseable. -/
def cleanDebtRecord (raw : RawDebtRecord) : Option CleanedDebtSnapshot :=
  match parseAmount raw.tot_pub_debt_out_amt with
  | none => none
  | some totalPublicDebt =>
      some
        { recordDate := jsOrStr (normalizeDate raw.record_date) raw.record_date
          totalPublicDebt := totalPublicDebt
          debtHeldByPublic := parseAmount raw.debt_held_public_amt
          intragovernmentalHoldings := parseAmount raw.intragov_hold_amt }

/-- `cleanSecurityRecords`: map and drop `null`s. -/
def cleanSecurityRecords (records : List RawMarketSecurityRecord) : List CleanedSecurity :=
  (records.map cleanSecurityRecord).filterMap id

/-- `cleanAuctionRecords`: map and drop `null`s. -/
def cleanAuctionRecords (records : List RawAuctionRecord) : List CleanedAuction :=
  (records.map cleanAuctionRecord).filterMap id

/-! ## Aggregators (`src/lib/etl/aggregators.ts`) -/

/-- One maturity-wall bucket. -/
structure MaturityWallData where
  year : ℤ
  bills : ℚ
  notes : ℚ
  bonds : ℚ
  tips : ℚ
  frn : ℚ
  total : ℚ
  deriving Repr, DecidableEq

/-- `a || b` on nullable numbers: `null`/`undefined` and `0` are falsy. -/
def jsOrInt (v : Option ℤ) (d : ℤ) : ℤ :=
  match v with
  | none => d
  | some x => if x = 0 then d else x

/-- The years `start, start + 1, …, endY` in ascending order. -/
def yearRange (start endY : ℤ) : List ℤ :=
  (List.range (endY + 1 - start).toNat).map (fun (i : ℕ) => start + (i : ℤ))

/-- A fresh all-zero bucket for a year. -/
def bucketInit (y : ℤ) : MaturityWallData :=
  { year := y, bills := 0, notes := 0, bonds := 0, tips := 0, frn := 0, total := 0 }

/-- Add one security to a bucket: its amount goes to the field of its
security type (`OTHER` has no field) and always to the grand total. -/
def bucketAdd (b : MaturityWallData) (s : CleanedSecurity) : MaturityWallData :=
  let amount := s.outstandingAmount
  let b1 :=
    match s.securityType with
    | .BILL => { b with bills := b.bills + amount }
    | .NOTE => { b with notes := b.notes + amount }
    | .BOND => { b with bonds := b.bonds + amount }
    | .TIPS => { b with tips := b.tips + amount }
    | .FRN => { b with frn := b.frn + amount }
    | .OTHER => b
  { b1 with total := b1.total + amount }

/-- The source-order guard on one security for the bucket of year `y`:
`!maturityYear` (so `null` and the falsy year `0` are skipped), range check
against `[start, endY]`, and the record keyed by the maturity year. -/
def secInBucket (start endY y : ℤ) (s : CleanedSecurity) : Prop :=
  match s.maturityYear with
  | none => False
  | some m => m ≠ 0 ∧ start ≤ m ∧ m ≤ endY ∧ m = y

instance (start endY y : ℤ) (s : CleanedSecurity) :
    Decidable (secInBucket start endY y s) := by
  unfold secInBucket
  cases s.maturityYear <;> infer_instance

/-- The bucket of year `y` after folding every security over it. -/
def buildBucket (securities : List CleanedSecurity) (start endY y : ℤ) :
    MaturityWallData :=
  securities.foldl
    (fun b s => if secInBucket start endY y s then bucketAdd b s else b)
    (bucketInit y)

/-- `aggregateMaturityWall`: defaulted bounds (`start || currentYear + 1`,
`end || start + 10` — `0` is falsy), one bucket per year of the range,
securities outside the range or with falsy maturity year skipped, output
ascending by year. -/
def aggregateMaturityWall (currentYear : ℤ) (securities : List CleanedSecurity)
    (startYear endYear : Option ℤ) : List MaturityWallData :=
  let start := jsOrInt startYear (currentYear + 1)
  let endY := jsOrInt endYear (start + 10)
  (yearRange start endY).map (buildBucket securities start endY)

/-- One point of the auction-demand chart. -/
structure AuctionDemandData where
  date : Option String
  ratio : ℚ
  type : String
  term : Option String
  direct : Option ℚ := none
  indirect : Option ℚ := none
  dealers : Option ℚ := none
  accepted : Option ℚ := none
  deriving Repr, DecidableEq

/-- Lexicographic comparison on code points, the `localeCompare` /
string-comparison order of the date strings the feeds produce. -/
def lexLe : List Char → List Char → Bool
  | [], _ => true
  | _ :: _, [] => false
  | a :: as, b :: bs =>
      if a.toNat < b.toNat then true
      else if b.toNat < a.toNat then false
      else lexLe as bs

/-- `a <= b` on strings. -/
def strLeB (a b : String) : Bool := lexLe a.data b.data

/-- The enum string persisted for an auction security type. -/
def auctionTypeStr : AuctionSecurityType → String
  | .BILL => "BILL"
  | .NOTE => "NOTE"
  | .BOND => "BOND"
  | .TIPS => "TIPS"
  | .FRN => "FRN"
  | .CMB => "CMB"

/-- `aggregateAuctionDemand`: keep auctions with a non-null ratio and a
requested type, optionally bounded below by the start date, sorted
ascending by auction date, projected to chart points. -/
def aggregateAuctionDemand (auctions : List CleanedAuction)
    (securityTypes : List String) (startDate : Option String) :
    List AuctionDemandData :=
  let filtered := auctions.filter
    (fun a => a.bidToCoverRatio ≠ none ∧
      securityTypes.contains (auctionTypeStr a.securityType))
  let filtered2 :=
    match startDate with
    | none => filtered
    | some d => filtered.filter (fun a => strLeB d (a.auctionDate.getD ""))
  let sorted := filtered2.insertionSort
    (fun a b => strLeB (a.auctionDate.getD "") (b.auctionDate.getD ""))
  sorted.map (fun a =>
    { date := a.auctionDate
      ratio := a.bidToCoverRatio.getD 0
      type := a.securityTypeRaw
      term := a.securityTerm })

/-- Descriptive statistics of `calculateAuctionStats`. -/
structure AuctionStats where
  count : ℕ
  avgRatio : ℚ
  minRatio : ℚ
  maxRatio : ℚ
  medianRatio : ℚ
  belowThreshold : ℕ
  deriving Repr, DecidableEq

/-- `calculateAuctionStats`: all-zero struct on empty input; otherwise
count, mean, min, max, the element at index `⌊n / 2⌋` of the ascending
ratio list, and the count of ratios below the 2.0 threshold. -/
def calculateAuctionStats (auctions : List AuctionDemandData) : AuctionStats :=
  if auctions.isEmpty then
    { count := 0, avgRatio := 0, minRatio := 0, maxRatio := 0,
      medianRatio := 0, belowThreshold := 0 }
  else
    let ratios := (auctions.map AuctionDemandData.ratio).insertionSort (· ≤ ·)
    let sum := ratios.foldl (· + ·) 0
    { count := auctions.length
      avgRatio := sum / (auctions.length : ℚ)
      minRatio := ratios.getD 0 0
      maxRatio := ratios.getD (ratios.length - 1) 0
      medianRatio := ratios.getD (ratios.length / 2) 0
      belowThreshold := (ratios.filter (fun r => r < 2)).length }

/-! ## Rate limiter (`src/lib/etl/treasury-client.ts`)

The in-memory `Map` and the `lastCleanup` global are threaded as explicit
state; `Date.now()` becomes the `now : ℤ` argument. -/

/-- Rate-limit window configuration. -/
structure RateLimitConfig where
  interval : ℤ
  limit : ℤ
  deriving Repr, DecidableEq

/-- One live window: request count and window-start timestamp. -/
structure RateLimitEntry where
  count : ℤ
  timestamp : ℤ
  deriving Repr, DecidableEq

/-- Result of one `checkRateLimit` call. -/
structure RateLimitResult where
  allowed : Bool
  remaining : ℤ
  resetIn : ℤ
  deriving Repr, DecidableEq

/-- The limiter's mutable globals: the store map and the last-cleanup time. -/
structure RateLimitState where
  store : List (String × RateLimitEntry)
  lastCleanup : ℤ
  deriving Repr, DecidableEq

/-- `Map.get`. -/
def lookupEntry (id : String) (m : List (String × RateLimitEntry)) :
    Option RateLimitEntry :=
  (m.find? (fun p => p.1 = id)).map (fun p => p.2)

/-- `Map.set`: replace an existing key or append. -/
def setEntry (id : String) (e : RateLimitEntry) :
    List (String × RateLimitEntry) → List (String × RateLimitEntry)
  | [] => [(id, e)]
  | (k, v) :: rest =>
      if k = id then (k, e) :: rest else (k, v) :: setEntry id e rest

/-- `CLEANUP_INTERVAL`: one minute. -/
def cleanupIntervalMs : ℤ := 60000

/-- `cleanupExpiredEntries`: a sweep of expired entries, throttled to at
most once per cleanup interval. -/
def cleanupExpiredEntries (now interval : ℤ) (s : RateLimitState) :
    RateLimitState :=
  if now - s.lastCleanup < cleanupIntervalMs then s
  else
    { store := s.store.filter (fun p => !(now - p.2.timestamp > interval : Bool))
      lastCleanup := now }

/-- `checkRateLimit`: read the caller's entry, run the throttled sweep, then
fresh-window / reject / increment exactly as in the source. -/
def checkRateLimit (now : ℤ) (identifier : String) (config : RateLimitConfig)
    (s : RateLimitState) : RateLimitResult × RateLimitState :=
  let entry := lookupEntry identifier s.store
  let s1 := cleanupExpiredEntries now config.interval s
  match entry with
  | none =>
      (⟨true, config.limit - 1, config.interval⟩,
       { s1 with store := setEntry identifier ⟨1, now⟩ s1.store })
  | some e =>
      if now - e.timestamp > config.interval then
        (⟨true, config.limit - 1, config.interval⟩,
         { s1 with store := setEntry identifier ⟨1, now⟩ s1.store })
      else if e.count ≥ config.limit then
        (⟨false, 0, config.interval - (now - e.timestamp)⟩, s1)
      else
        (⟨true, config.limit - (e.count + 1),
          config.interval - (now - e.timestamp)⟩,
         { s1 with store := setEntry identifier ⟨e.count + 1, e.timestamp⟩ s1.store })

/-! ## Ingestion job helpers (`src/app/api/cron/ingest/route.ts`) -/

/-- `chunkArray`: slices of `size` consecutive elements.  The source loops
`i += size`, which does not terminate for `size = 0`; the embedding returns
`[]` there and every claim is stated for positive sizes. -/
def chunkArray {α : Type} : List α → ℕ → List (List α)
  | _, 0 => []
  | [], _ + 1 => []
  | a :: l, n + 1 =>
      ((a :: l).take (n + 1)) :: chunkArray ((a :: l).drop (n + 1)) (n + 1)
termination_by l _ => l.length
decreasing_by
  simp only [List.length_drop, List.length_cons]
  omega

/-! ## Route handlers

Each handler is embedded as a pure function of its request parameters and
of the outcomes of its I/O calls: a store query is an
`Except Unit rows` argument (`.error` = driver exception), the upstream
fetch an `Except Unit rawRecords` argument, and `Date.now()` /
`new Date().getFullYear()` explicit arguments.  Store rows carry the
values their columns denote (`numeric` columns are decimal strings that
`parseFloat` recovers exactly, so they are embedded as the rationals they
denote). -/

/-- Origin tag of a served result. -/
inductive Source where
  | database | api
  deriving DecidableEq, Repr

/-- `validateYears` (`treasury-client.ts`): missing parameter is valid with
default 10; otherwise `parseInt` must give a number in `[1, 30]`. -/
structure YearsValidation where
  isValid : Bool
  value : ℤ
  deriving Repr, DecidableEq

/-- `validateYears`, exactly as in the source. -/
def validateYears (years : Option String) : YearsValidation :=
  if strFalsy years then ⟨true, 10⟩
  else match years with
       | none => ⟨true, 10⟩
       | some s =>
           match jsParseInt s with
           | none => ⟨false, 10⟩
           | some p => if p < 1 ∨ p > 30 then ⟨false, 10⟩ else ⟨true, p⟩

/-- A persisted `treasury_securities` row as the maturity-wall route reads
it. -/
structure DbSecurityRow where
  recordDate : String
  cusip : Option String
  securityType : SecurityType
  securityTypeDesc : Option String
  securityClass : Option String
  issueDate : Option String
  maturityDate : Option String
  maturityYear : Option ℤ
  outstandingAmount : ℚ
  interestRate : Option ℚ
  deriving Repr, DecidableEq

/-- The route's mapping of a store row into the aggregator's input shape. -/
def dbRowToCleaned (s : DbSecurityRow) : CleanedSecurity :=
  { recordDate := some s.recordDate
    cusip := s.cusip
    securityType := s.securityType
    securityTypeDesc := jsOrEmpty s.securityTypeDesc
    securityClass := s.securityClass
    issueDate := s.issueDate
    maturityDate := s.maturityDate
    maturityYear := s.maturityYear
    outstandingAmount := s.outstandingAmount
    interestRate := s.interestRate }

/-- Responses of `GET /api/maturity-wall`. -/
inductive MaturityWallResponse where
  | rateLimited
  | badRequest
  | ok (data : List MaturityWallData) (recordDate : Option String)
      (totalProcessed : ℕ) (source : Source)
  | notFound
  | serverError
  deriving DecidableEq, Repr

/-- `GET /api/maturity-wall`: rate-limit gate, `years` validation, then the
store-first read (two store queries inside their own `try`, any failure or
miss falling through) and the live-API fallback. -/
def maturityWallGET (currentYear : ℤ) (rate : RateLimitResult)
    (yearsParam : Option String) (dbConfigured : Bool)
    (latestQuery : Except Unit (List String))
    (securitiesQuery : String → Except Unit (List DbSecurityRow))
    (upstream : Except Unit (List RawMarketSecurityRecord)) :
    MaturityWallResponse :=
  if !rate.allowed then .rateLimited
  else
    let v := validateYears yearsParam
    if !v.isValid then .badRequest
    else
      let years := v.value
      let dbResult : Option MaturityWallResponse :=
        if dbConfigured then
          match latestQuery with
          | .error _ => none
          | .ok [] => none
          | .ok (latestDate :: _) =>
              match securitiesQuery latestDate with
              | .error _ => none
              | .ok [] => none
              | .ok (r :: rs) =>
                  let cleaned := (r :: rs).map dbRowToCleaned
                  some (.ok
                    (aggregateMaturityWall currentYear cleaned
                      (some (currentYear + 1)) (some (currentYear + 1 + years)))
                    (some latestDate) cleaned.length .database)
        else none
      match dbResult with
      | some r => r
      | none =>
          match upstream with
          | .error _ => .serverError
          | .ok rawSecurities =>
              if rawSecurities.isEmpty then .notFound
              else
                let latestDate := rawSecurities.head?.bind
                  (fun r => r.record_date)
                let latestRecords := rawSecurities.filter
                  (fun r => r.record_date = latestDate)
                let cleaned := cleanSecurityRecords latestRecords
                .ok
                  (aggregateMaturityWall currentYear cleaned
                    (some (currentYear + 1)) (some (currentYear + 1 + years)))
                  latestDate cleaned.length .api

/-- A persisted `treasury_auctions` row as the auctions route reads it. -/
structure DbAuctionRow where
  auctionDate : String
  securityType : AuctionSecurityType
  securityTypeRaw : Option String
  securityTerm : Option String
  bidToCoverRatio : Option ℚ
  directBidderAccepted : Option ℚ
  indirectBidderAccepted : Option ℚ
  primaryDealerAccepted : Option ℚ
  acceptedAmount : Option ℚ
  deriving Repr, DecidableEq

/-- The route's mapping of a store auction row into a chart point
(`a.bidToCoverRatio ? parseFloat(a.bidToCoverRatio) : 0`, etc.). -/
def dbAuctionToPoint (a : DbAuctionRow) : AuctionDemandData :=
  { date := some a.auctionDate
    ratio := a.bidToCoverRatio.getD 0
    type := match jsOrNull a.securityTypeRaw with
            | some s => s
            | none => auctionTypeStr a.securityType
    term := a.securityTerm
    direct := a.directBidderAccepted
    indirect := a.indirectBidderAccepted
    dealers := a.primaryDealerAccepted
    accepted := a.acceptedAmount }

/-- The database branch's point pipeline: map rows to chart points, keep
positive ratios, sort ascending by date. -/
def auctionsDbPoints (rows : List DbAuctionRow) : List AuctionDemandData :=
  ((rows.map dbAuctionToPoint).filter (fun a => a.ratio > 0)).insertionSort
    (fun a b => strLeB (a.date.getD "") (b.date.getD ""))

/-- Responses of `GET /api/auctions`. -/
inductive AuctionsResponse where
  | ok (data : List AuctionDemandData) (stats : AuctionStats) (source : Source)
  | notFound
  | serverError
  deriving DecidableEq, Repr

/-- `GET /api/auctions`: one store query inside the route's single
`try` — so a driver exception reaches the outer `catch` and becomes a 500 —
then in-memory type filtering, and the live-API fallback when the store
yields no usable rows. -/
def auctionsGET (types : List String) (startDate : String)
    (dbQuery : Except Unit (List DbAuctionRow))
    (upstream : Except Unit (List RawAuctionRecord)) : AuctionsResponse :=
  match dbQuery with
  | .error _ => .serverError
  | .ok dbAuctions =>
      let viaDb : Option AuctionsResponse :=
        if dbAuctions.isEmpty then none
        else
          let filteredDb := dbAuctions.filter
            (fun a => types.contains (auctionTypeStr a.securityType))
          if filteredDb.isEmpty then none
          else
            let cleanData := auctionsDbPoints filteredDb
            some (.ok cleanData (calculateAuctionStats cleanData) .database)
      match viaDb with
      | some r => r
      | none =>
          match upstream with
          | .error _ => .serverError
          | .ok raw =>
              if raw.isEmpty then .notFound
              else
                let cleaned := cleanAuctionRecords raw
                let demand := aggregateAuctionDemand cleaned types (some startDate)
                .ok demand (calculateAuctionStats demand) .api

/-- A persisted `economic_indicators` row as the health route reads it:
`numeric` columns arrive as decimal strings (possibly `null`). -/
structure IndicatorRow where
  recordDate : String
  debtToGdpRatio : Option String
  interestExpense : Option String
  averageInterestRate : Option String
  yieldCurveSpread : Option String
  realYield10y : Option String
  breakeven10y : Option String
  deriving Repr, DecidableEq

/-- The health metrics payload.  A field is `none` when the route would
serve `NaN` (an unparseable stored string); the hardcoded defaults are all
finite. -/
structure HealthMetrics where
  debtToGdp : Option ℚ
  interestExpense : Option ℚ
  averageInterestRate : Option ℚ
  yieldCurveSpread : Option ℚ
  realYield10y : Option ℚ
  breakeven10y : Option ℚ
  lastUpdated : String
  deriving Repr, DecidableEq

/-- `DEFAULT_METRICS`: the hardcoded last-known-good values; `lastUpdated`
is the deploy-day date string, passed in as `today`. -/
def DEFAULT_METRICS (today : String) : HealthMetrics :=
  { debtToGdp := some (124.5 : ℚ)
    interestExpense := some 1100000000000
    averageInterestRate := some (3.32 : ℚ)
    yieldCurveSpread := some (0.15 : ℚ)
    realYield10y := some (2.1 : ℚ)
    breakeven10y := some (2.3 : ℚ)
    lastUpdated := today }

/-- `latest.x ? parseFloat(latest.x) : DEFAULT_METRICS.x`: a falsy stored
field (null or empty) falls back to the default, a truthy one is parsed. -/
def fillMetric (v : Option String) (d : Option ℚ) : Option ℚ :=
  match v with
  | none => d
  | some s => if s.data.isEmpty then d else jsParseFloat s

/-- Responses of `GET /api/health`.  The error constructor exists only to
express the property that the route never produces it. -/
inductive HealthResponse where
  | ok (m : HealthMetrics)
  | error (status : ℕ)
  deriving DecidableEq, Repr

/-- `GET /api/health`: `none` = no store configured (`getDb()` null),
`some (.error _)` = store query threw, `some (.ok rows)` = query result.
Every branch answers 200 with metrics; missing data degrades to the
hardcoded defaults field by field. -/
def healthGET (today : String)
    (db : Option (Except Unit (List IndicatorRow))) : HealthResponse :=
  match db with
  | none => .ok (DEFAULT_METRICS today)
  | some (.error _) => .ok (DEFAULT_METRICS today)
  | some (.ok rows) =>
      match rows.head? with
      | none => .ok (DEFAULT_METRICS today)
      | some latest => .ok
          { debtToGdp := fillMetric latest.debtToGdpRatio (DEFAULT_METRICS today).debtToGdp
            interestExpense := fillMetric latest.interestExpense (DEFAULT_METRICS today).interestExpense
            averageInterestRate := fillMetric latest.averageInterestRate (DEFAULT_METRICS today).averageInterestRate
            yieldCurveSpread := fillMetric latest.yieldCurveSpread (DEFAULT_METRICS today).yieldCurveSpread
            realYield10y := fillMetric latest.realYield10y (DEFAULT_METRICS today).realYield10y
            breakeven10y := fillMetric latest.breakeven10y (DEFAULT_METRICS today).breakeven10y
            lastUpdated := latest.recordDate }

/-! ## Ingestion job (`src/app/api/cron/ingest/route.ts`)

Each of the five steps runs inside its own `try`/`catch`; the step bodies
(fetch, clean, chunked insert) are I/O and are abstracted as one outcome
oracle per step: `.error e` = the step threw `e`, `.ok none` = the step ran
but found nothing to record (its result entry keeps the initial value),
`.ok (some …)` = the step recorded a success message (and count). -/

/-- A step result without a count (`debt`, `indicators`, `aggregates`). -/
structure StepResult where
  success : Bool
  message : String
  deriving Repr, DecidableEq

/-- A step result with a processed-record count (`securities`, `auctions`). -/
structure StepResultC where
  success : Bool
  message : String
  count : ℕ
  deriving Repr, DecidableEq

/-- The per-step report accumulator of the job. -/
structure IngestResults where
  debt : StepResult
  securities : StepResultC
  auctions : StepResultC
  indicators : StepResult
  aggregates : StepResult
  deriving Repr, DecidableEq

/-- Names of the five job steps, in their fixed execution order. -/
inductive StepId where
  | debt | securities | auctions | indicators | aggregates
  deriving DecidableEq, Repr

/-- One countless step under its failure boundary. -/
def runStep (o : Except String (Option String)) : StepResult :=
  match o with
  | .error e => ⟨false, "Error: " ++ e⟩
  | .ok none => ⟨false, ""⟩
  | .ok (some m) => ⟨true, m⟩

/-- One counted step under its failure boundary. -/
def runStepC (o : Except String (Option (String × ℕ))) : StepResultC :=
  match o with
  | .error e => ⟨false, "Error: " ++ e, 0⟩
  | .ok none => ⟨false, "", 0⟩
  | .ok (some mc) => ⟨true, mc.1, mc.2⟩

/-- The aggregates step: its body performs no awaited work, so it succeeds
with a fixed message unless it throws. -/
def runStepAgg (o : Except String Unit) : StepResult :=
  match o with
  | .ok _ => ⟨true, "Aggregates computed and stored"⟩
  | .error e => ⟨false, "Error: " ++ e⟩

/-- Responses of `GET /api/cron/ingest`.  Both terminal responses carry the
accumulated per-step report. -/
inductive IngestResponse where
  | unauthorized
  | storeUnavailable
  | completed (results : IngestResults)
  | failed (results : IngestResults)
  deriving DecidableEq, Repr

/-- `GET /api/cron/ingest`: authorization gate, store gate, the five steps
in fixed order each under its own failure boundary, then the terminal
job-log write (`logEnd`), whose failure reaches the outer `catch` and turns
the response into a 500 that still carries the report.  The start-log
write's failure is caught and ignored (`logStart` does not influence the
result).  The second component lists the steps that ran, in order. -/
def ingestGET (authorized : Bool) (dbConfigured : Bool)
    (logStart : Except String Unit)
    (debtStep : Except String (Option String))
    (securitiesStep : Except String (Option (String × ℕ)))
    (auctionsStep : Except String (Option (String × ℕ)))
    (indicatorsStep : Except String (Option String))
    (aggregatesStep : Except String Unit)
    (logEnd : Except String Unit) : IngestResponse × List StepId :=
  if !authorized then (.unauthorized, [])
  else if !dbConfigured then (.storeUnavailable, [])
  else
    let results : IngestResults :=
      { debt := runStep debtStep
        securities := runStepC securitiesStep
        auctions := runStepC auctionsStep
        indicators := runStep indicatorsStep
        aggregates := runStepAgg aggregatesStep }
    let trace := [StepId.debt, .securities, .auctions, .indicators, .aggregates]
    match logEnd with
    | .ok _ => (.completed results, trace)
    | .error _ => (.failed results, trace)

/-! ## Spec-side definitions and concrete inputs

Definitions in this section are written from the specification's words (for
refinement comparisons against the embedded source functions) or are
concrete inputs used by witnesses and counterexamples. -/

/-- Sum of the `total` fields over a list of buckets. -/
def sumTotals (l : List MaturityWallData) : ℚ :=
  (l.map MaturityWallData.total).sum

/-- The specification's membership test for the maturity-wall sum:
`maturityYear` non-null and `y0 ≤ maturityYear ≤ y1`. -/
def claimedInRange (y0 y1 : ℤ) (s : CleanedSecurity) : Bool :=
  match s.maturityYear with
  | none => false
  | some m => decide (y0 ≤ m) && decide (m ≤ y1)

/-- The specification's right-hand side for the maturity-wall sum: the sum
of `outstandingAmount` over exactly the securities whose `maturityYear` is
non-null and satisfies `y0 ≤ maturityYear ≤ y1`. -/
def claimedMaturitySum (secs : List CleanedSecurity) (y0 y1 : ℤ) : ℚ :=
  ((secs.filter (claimedInRange y0 y1)).map
    CleanedSecurity.outstandingAmount).sum

/-- The code's membership test: as `claimedInRange`, but the falsy maturity
year `0` is additionally excluded, mirroring the `!maturityYear` skip of
the source. -/
def codeInRange (y0 y1 : ℤ) (s : CleanedSecurity) : Bool :=
  match s.maturityYear with
  | none => false
  | some m => !(m = 0 : Bool) && decide (y0 ≤ m) && decide (m ≤ y1)

/-- The sum the code actually computes over the requested range. -/
def codeMaturitySum (secs : List CleanedSecurity) (y0 y1 : ℤ) : ℚ :=
  ((secs.filter (codeInRange y0 y1)).map
    CleanedSecurity.outstandingAmount).sum

/-- A cleaned security whose maturity year is the falsy number `0`. -/
def secYearZero : CleanedSecurity :=
  { recordDate := some "0001-01-15"
    cusip := none
    securityType := .NOTE
    securityTypeDesc := "Notes"
    securityClass := none
    issueDate := none
    maturityDate := some "0000-06-30"
    maturityYear := some 0
    outstandingAmount := 100
    interestRate := none }

/-- A cleaned ten-year note maturing in 2030. -/
def secYear2030 : CleanedSecurity :=
  { recordDate := some "2025-06-30"
    cusip := some "91282CAV3"
    securityType := .NOTE
    securityTypeDesc := "Notes"
    securityClass := none
    issueDate := some "2020-11-15"
    maturityDate := some "2030-11-15"
    maturityYear := some 2030
    outstandingAmount := 250
    interestRate := some (0.875 : ℚ) }

/-- Walk an ordered rule table top to bottom; the first rule whose
predicate accepts the lower-cased input decides, else the fallback. -/
def classifyList {T : Type} : List ((List Char → Bool) × T) → T → List Char → T
  | [], fallback, _ => fallback
  | r :: rs, fallback, lower =>
      if r.1 lower then r.2 else classifyList rs fallback lower

/-- Modelled from the spec: classification as an explicit, ordered rule
table over the lower-cased input, with falsy input going to the fallback. -/
def classifyRules {T : Type} (rules : List ((List Char → Bool) × T))
    (fallback : T) (input : Option String) : T :=
  if strFalsy input then fallback
  else match input with
       | none => fallback
       | some s => classifyList rules fallback (lowerStr s.data)

/-- The securities rule list in the order the source evaluates it:
bill, tips/inflation, floating/frn, note, bond. -/
def securityRulesSourceOrder : List ((List Char → Bool) × SecurityType) :=
  [ (fun l => includesSub l "bill", .BILL),
    (fun l => includesSub l "tips" || includesSub l "inflation", .TIPS),
    (fun l => includesSub l "floating" || includesSub l "frn", .FRN),
    (fun l => includesSub l "note", .NOTE),
    (fun l => includesSub l "bond", .BOND) ]

/-- The auctions rule list in the order the source evaluates it:
bill, tips/inflation, floating/frn, cmb/cash management, bond, note. -/
def auctionRulesSourceOrder : List ((List Char → Bool) × AuctionSecurityType) :=
  [ (fun l => includesSub l "bill", .BILL),
    (fun l => includesSub l "tips" || includesSub l "inflation", .TIPS),
    (fun l => includesSub l "floating" || includesSub l "frn", .FRN),
    (fun l => includesSub l "cmb" || includesSub l "cash management", .CMB),
    (fun l => includesSub l "bond", .BOND),
    (fun l => includesSub l "note", .NOTE) ]

/-- Modelled from the spec: the claimed rule order for securities, with
bond tried before note (the claim's order), to compare with the source. -/
def normalizeSecurityTypeClaimOrder (desc : Option String) : SecurityType :=
  classifyRules
    [ (fun l => includesSub l "bill", .BILL),
      (fun l => includesSub l "tips" || includesSub l "inflation", .TIPS),
      (fun l => includesSub l "floating" || includesSub l "frn", .FRN),
      (fun l => includesSub l "bond", .BOND),
      (fun l => includesSub l "note", .NOTE) ]
    .OTHER desc

/-- No minus sign anywhere in a nullable raw string. -/
def minusFree (v : Option String) : Bool :=
  match v with
  | none => true
  | some s => !(s.data.any (fun c => c = '-'))

/-- A raw auction record carrying a negative offering amount together with
a parseable bid-to-cover ratio. -/
def rawAuctionNegativeAmt : RawAuctionRecord :=
  { auction_date := some "2024-01-15"
    security_type := some "Note"
    bid_to_cover_ratio := some "2.5"
    offering_amt := some "-100" }

/-- A raw auction record whose bid-to-cover ratio is the sentinel `N/A`. -/
def rawAuctionNA : RawAuctionRecord :=
  { auction_date := some "2024-02-06"
    security_type := some "Note"
    bid_to_cover_ratio := some "N/A"
    offering_amt := some "58,000,000,000" }

/-- A raw auction record that cleans successfully. -/
def rawAuctionValid : RawAuctionRecord :=
  { auction_date := some "2024-02-07"
    security_type := some "Note"
    security_term := some "10-Year"
    cusip := some "91282CJZ5"
    bid_to_cover_ratio := some "2.56"
    high_yield := some "4.093"
    offering_amt := some "42,000,000,000"
    accepted_amt := some "42,000,000,000" }

/-- The three-point demand list of the specification's statistics example. -/
def demandExample : List AuctionDemandData :=
  [ { date := none, ratio := 1.5, type := "", term := none },
    { date := none, ratio := 2.5, type := "", term := none },
    { date := none, ratio := 3.5, type := "", term := none } ]

/-- A persisted security row used by concrete resolver scenarios. -/
def dbSecRow : DbSecurityRow :=
  { recordDate := "2025-06-30", cusip := some "91282CAV3",
    securityType := .NOTE, securityTypeDesc := some "Notes",
    securityClass := none, issueDate := none,
    maturityDate := some "2030-11-15", maturityYear := some 2030,
    outstandingAmount := 250, interestRate := none }

/-! ## Helper lemmas -/

lemma chunkArray_nil {α : Type} (size : ℕ) : chunkArray ([] : List α) size = [] := by
  cases size
  · rw [chunkArray]
  · rw [chunkArray]

lemma chunkArray_cons {α : Type} (a : α) (l : List α) (n : ℕ) :
    chunkArray (a :: l) (n + 1) =
      ((a :: l).take (n + 1)) :: chunkArray ((a :: l).drop (n + 1)) (n + 1) := by
  rw [chunkArray]

lemma chunkArray_flatten {α : Type} (n : ℕ) :
    ∀ (l : List α) (size : ℕ), l.length ≤ n → 0 < size →
      (chunkArray l size).flatten = l := by
  induction n with
  | zero =>
      intro l size hl _
      have : l = [] := List.length_eq_zero.mp (Nat.le_zero.mp hl)
      subst this
      simp [chunkArray_nil]
  | succ n ih =>
      intro l size hl hs
      match l, size with
      | [], size => simp [chunkArray_nil]
      | a :: l, size + 1 =>
          rw [chunkArray_cons]
          simp only [List.flatten_cons]
          rw [ih _ (size + 1) ?_ (Nat.succ_pos _)]
          · exact List.take_append_drop _ _
          · simp only [List.length_drop, List.length_cons] at hl ⊢
            omega

lemma chunkArray_mem {α : Type} (n : ℕ) :
    ∀ (l : List α) (size : ℕ) (c : List α), l.length ≤ n →
      c ∈ chunkArray l (size + 1) → c ≠ [] ∧ c.length ≤ size + 1 := by
  induction n with
  | zero =>
      intro l size c hl hc
      have : l = [] := List.length_eq_zero.mp (Nat.le_zero.mp hl)
      subst this
      rw [chunkArray_nil] at hc
      exact absurd hc (List.not_mem_nil c)
  | succ n ih =>
      intro l size c hl hc
      match l with
      | [] =>
          rw [chunkArray_nil] at hc
          exact absurd hc (List.not_mem_nil c)
      | a :: l =>
          rw [chunkArray_cons] at hc
          rcases List.mem_cons.mp hc with h | h
          · subst h
            constructor
            · simp
            · simpa using List.length_take_le _ _
          · refine ih _ size c ?_ h
            simp only [List.length_drop, List.length_cons] at hl ⊢
            omega

lemma chunkArray_full {α : Type} (n : ℕ) :
    ∀ (l : List α) (size i : ℕ), l.length ≤ n →
      i + 1 < (chunkArray l (size + 1)).length →
      ((chunkArray l (size + 1)).getD i []).length = size + 1 := by
  induction n with
  | zero =>
      intro l size i hl hi
      have : l = [] := List.length_eq_zero.mp (Nat.le_zero.mp hl)
      subst this
      rw [chunkArray_nil] at hi
      simp at hi
  | succ n ih =>
      intro l size i hl hi
      match l with
      | [] => rw [chunkArray_nil] at hi; simp at hi
      | a :: l =>
          rw [chunkArray_cons] at hi ⊢
          match i with
          | 0 =>
              simp only [List.getD_cons_zero]
              simp only [List.length_cons, Nat.add_lt_add_iff_right] at hi
              have hrest : chunkArray ((a :: l).drop (size + 1)) (size + 1) ≠ [] := by
                intro h
                rw [h] at hi
                simp at hi
              have hdrop : (a :: l).drop (size + 1) ≠ [] := by
                intro h
                rw [h, chunkArray_nil] at hrest
                exact hrest rfl
              have hlen : size + 1 < (a :: l).length := by
                by_contra hle
                push_neg at hle
                exact hdrop (List.drop_eq_nil_of_le hle)
              rw [List.length_take]
              omega
          | j + 1 =>
              simp only [List.getD_cons_succ]
              refine ih _ size j ?_ ?_
              · simp only [List.length_drop, List.length_cons] at hl ⊢
                omega
              · exact Nat.lt_of_succ_lt_succ hi

lemma sum_map_add (l : List CleanedSecurity) (f g : CleanedSecurity → ℚ) :
    (l.map (fun x => f x + g x)).sum = (l.map f).sum + (l.map g).sum := by
  induction l with
  | nil => simp
  | cons a l ih => simp [ih]; ring

lemma bucketAdd_total (b : MaturityWallData) (s : CleanedSecurity) :
    (bucketAdd b s).total = b.total + s.outstandingAmount := by
  cases h : s.securityType <;> simp [bucketAdd, h]

lemma foldl_bucket_total (secs : List CleanedSecurity) (start endY y : ℤ) :
    ∀ b : MaturityWallData,
      (secs.foldl
        (fun b s => if secInBucket start endY y s then bucketAdd b s else b)
        b).total
        = b.total + (secs.map
            (fun s => if secInBucket start endY y s then s.outstandingAmount
                      else 0)).sum := by
  induction secs with
  | nil => intro b; simp
  | cons a l ih =>
      intro b
      by_cases h : secInBucket start endY y a
      · simp only [List.foldl_cons, if_pos h, List.map_cons, List.sum_cons, ih,
          bucketAdd_total]
        ring
      · simp only [List.foldl_cons, if_neg h, List.map_cons, List.sum_cons, ih]
        ring

lemma buildBucket_total (secs : List CleanedSecurity) (start endY y : ℤ) :
    (buildBucket secs start endY y).total
      = (secs.map
          (fun s => if secInBucket start endY y s then s.outstandingAmount
                    else 0)).sum := by
  simp [buildBucket, foldl_bucket_total, bucketInit]

lemma yearRange_mem (start endY y : ℤ) :
    y ∈ yearRange start endY ↔ start ≤ y ∧ y ≤ endY := by
  simp only [yearRange, List.mem_map, List.mem_range]
  constructor
  · rintro ⟨i, hi, rfl⟩
    omega
  · rintro ⟨h1, h2⟩
    exact ⟨(y - start).toNat, by omega, by omega⟩

lemma yearRange_nodup (start endY : ℤ) : (yearRange start endY).Nodup := by
  refine List.Nodup.map ?_ (List.nodup_range _)
  intro a b hab
  have h2 : start + (a : ℤ) = start + (b : ℤ) := hab
  omega

lemma sum_ite_mem (R : List ℤ) (hR : R.Nodup) (m : ℤ) (a : ℚ) :
    (R.map (fun y => if m = y then a else 0)).sum = if m ∈ R then a else 0 := by
  induction R with
  | nil => simp
  | cons r R ih =>
      rcases List.nodup_cons.mp hR with ⟨hr, hR2⟩
      by_cases h : m = r
      · subst h
        simp [List.map_cons, List.sum_cons, ih hR2, hr]
      · simp [List.map_cons, List.sum_cons, ih hR2, h, Ne.symm h]

lemma sum_swap (R : List ℤ) (S : List CleanedSecurity)
    (f : ℤ → CleanedSecurity → ℚ) :
    (R.map (fun y => (S.map (f y)).sum)).sum
      = (S.map (fun s => (R.map (fun y => f y s)).sum)).sum := by
  induction R with
  | nil => simp
  | cons r R ih =>
      simp only [List.map_cons, List.sum_cons, ih]
      rw [← sum_map_add]

lemma sum_filter_ite (l : List CleanedSecurity) (p : CleanedSecurity → Bool)
    (f : CleanedSecurity → ℚ) :
    ((l.filter p).map f).sum
      = (l.map (fun x => if p x then f x else 0)).sum := by
  induction l with
  | nil => simp
  | cons a l ih =>
      by_cases h : p a
      · simp [List.filter_cons, h, ih]
      · simp [List.filter_cons, h, ih]

lemma sum_bucket_indicator (y0 y1 : ℤ) (s : CleanedSecurity) :
    ((yearRange y0 y1).map
      (fun y => if secInBucket y0 y1 y s then s.outstandingAmount else 0)).sum
      = if codeInRange y0 y1 s then s.outstandingAmount else 0 := by
  cases hm : s.maturityYear with
  | none =>
      have hz : ∀ y ∈ yearRange y0 y1,
          (if secInBucket y0 y1 y s then s.outstandingAmount else 0) = 0 := by
        intro y hy
        rw [if_neg]
        simp [secInBucket, hm]
      rw [List.map_congr_left hz]
      simp [codeInRange, hm]
  | some m =>
      by_cases hc : m ≠ 0 ∧ y0 ≤ m ∧ m ≤ y1
      · have hmap : ∀ y ∈ yearRange y0 y1,
            (if secInBucket y0 y1 y s then s.outstandingAmount else 0)
              = (if m = y then s.outstandingAmount else 0) := by
          intro y hy
          by_cases hmy : m = y
          · rw [if_pos, if_pos hmy]
            unfold secInBucket
            rw [hm]
            exact ⟨hc.1, hc.2.1, hc.2.2, hmy⟩
          · rw [if_neg, if_neg hmy]
            unfold secInBucket
            rw [hm]
            intro h
            exact hmy h.2.2.2
        rw [List.map_congr_left hmap, sum_ite_mem _ (yearRange_nodup y0 y1),
          if_pos ((yearRange_mem y0 y1 m).mpr ⟨hc.2.1, hc.2.2⟩)]
        have hcr : codeInRange y0 y1 s = true := by
          simp only [codeInRange, hm, Bool.and_eq_true, Bool.not_eq_true',
            decide_eq_true_eq, decide_eq_false_iff_not]
          exact ⟨⟨hc.1, hc.2.1⟩, hc.2.2⟩
        rw [if_pos hcr]
      · have hz : ∀ y ∈ yearRange y0 y1,
            (if secInBucket y0 y1 y s then s.outstandingAmount else 0) = 0 := by
          intro y hy
          rw [if_neg]
          unfold secInBucket
          rw [hm]
          intro h
          exact hc ⟨h.1, h.2.1, h.2.2.1⟩
        rw [List.map_congr_left hz]
        cases hcr : codeInRange y0 y1 s with
        | false => simp
        | true =>
            exfalso
            simp only [codeInRange, hm, Bool.and_eq_true, Bool.not_eq_true',
              decide_eq_true_eq, decide_eq_false_iff_not] at hcr
            exact hc ⟨hcr.1.1, hcr.1.2, hcr.2⟩

lemma lookupEntry_cons_self (id : String) (v : RateLimitEntry)
    (rest : List (String × RateLimitEntry)) :
    lookupEntry id ((id, v) :: rest) = some v := by
  simp [lookupEntry, List.find?_cons_of_pos]

lemma lookupEntry_cons_ne (id k : String) (v : RateLimitEntry)
    (rest : List (String × RateLimitEntry)) (hk : k ≠ id) :
    lookupEntry id ((k, v) :: rest) = lookupEntry id rest := by
  unfold lookupEntry
  rw [List.find?_cons_of_neg]
  simpa using hk

lemma lookup_setEntry_self (id : String) (e : RateLimitEntry) :
    ∀ m, lookupEntry id (setEntry id e m) = some e := by
  intro m
  induction m with
  | nil => simp [setEntry, lookupEntry_cons_self]
  | cons kv rest ih =>
      rcases kv with ⟨k, v⟩
      by_cases h : k = id
      · subst h
        simp [setEntry, lookupEntry_cons_self]
      · rw [show setEntry id e ((k, v) :: rest) = (k, v) :: setEntry id e rest
            from by simp [setEntry, h],
          lookupEntry_cons_ne id k v _ h]
        exact ih

lemma lookupEntry_filter (id : String) (p : String × RateLimitEntry → Bool)
    (e : RateLimitEntry) :
    ∀ m, lookupEntry id m = some e → p (id, e) = true →
      lookupEntry id (m.filter p) = some e := by
  intro m
  induction m with
  | nil => simp [lookupEntry, List.find?]
  | cons kv rest ih =>
      intro h hp
      rcases kv with ⟨k, v⟩
      by_cases hk : k = id
      · subst hk
        rw [lookupEntry_cons_self] at h
        have hv : v = e := by injection h
        subst hv
        rw [List.filter_cons, if_pos (by simpa using hp)]
        exact lookupEntry_cons_self _ _ _
      · rw [lookupEntry_cons_ne id k v rest hk] at h
        rw [List.filter_cons]
        by_cases hf : p (k, v) = true
        · rw [if_pos (by simpa using hf), lookupEntry_cons_ne id k v _ hk]
          exact ih h hp
        · rw [if_neg (by simpa using hf)]
          exact ih h hp


lemma checkRateLimit_fresh (now : ℤ) (idn : String) (cfg : RateLimitConfig)
    (s : RateLimitState) (h : lookupEntry idn s.store = none) :
    checkRateLimit now idn cfg s =
      (⟨true, cfg.limit - 1, cfg.interval⟩,
       { store := setEntry idn ⟨1, now⟩
           (cleanupExpiredEntries now cfg.interval s).store
         lastCleanup := (cleanupExpiredEntries now cfg.interval s).lastCleanup }) := by
  unfold checkRateLimit
  rw [h]

lemma checkRateLimit_expired (now : ℤ) (idn : String) (cfg : RateLimitConfig)
    (s : RateLimitState) (e : RateLimitEntry)
    (h : lookupEntry idn s.store = some e)
    (hexp : now - e.timestamp > cfg.interval) :
    checkRateLimit now idn cfg s =
      (⟨true, cfg.limit - 1, cfg.interval⟩,
       { store := setEntry idn ⟨1, now⟩
           (cleanupExpiredEntries now cfg.interval s).store
         lastCleanup := (cleanupExpiredEntries now cfg.interval s).lastCleanup }) := by
  unfold checkRateLimit
  rw [h]
  simp only [if_pos hexp]

lemma checkRateLimit_reject (now : ℤ) (idn : String) (cfg : RateLimitConfig)
    (s : RateLimitState) (e : RateLimitEntry)
    (h : lookupEntry idn s.store = some e)
    (hin : ¬(now - e.timestamp > cfg.interval)) (hcnt : e.count ≥ cfg.limit) :
    checkRateLimit now idn cfg s =
      (⟨false, 0, cfg.interval - (now - e.timestamp)⟩,
       cleanupExpiredEntries now cfg.interval s) := by
  unfold checkRateLimit
  rw [h]
  simp only [if_neg hin, if_pos hcnt]

lemma checkRateLimit_increment (now : ℤ) (idn : String) (cfg : RateLimitConfig)
    (s : RateLimitState) (e : RateLimitEntry)
    (h : lookupEntry idn s.store = some e)
    (hin : ¬(now - e.timestamp > cfg.interval)) (hcnt : ¬(e.count ≥ cfg.limit)) :
    checkRateLimit now idn cfg s =
      (⟨true, cfg.limit - (e.count + 1), cfg.interval - (now - e.timestamp)⟩,
       { store := setEntry idn ⟨e.count + 1, e.timestamp⟩
           (cleanupExpiredEntries now cfg.interval s).store
         lastCleanup := (cleanupExpiredEntries now cfg.interval s).lastCleanup }) := by
  unfold checkRateLimit
  rw [h]
  simp only [if_neg hin, if_neg hcnt]

lemma lookup_cleanup (now interval : ℤ) (s : RateLimitState) (idn : String)
    (e : RateLimitEntry) (h : lookupEntry idn s.store = some e)
    (hlive : ¬(now - e.timestamp > interval)) :
    lookupEntry idn (cleanupExpiredEntries now interval s).store = some e := by
  unfold cleanupExpiredEntries
  by_cases hc : now - s.lastCleanup < cleanupIntervalMs
  · rw [if_pos hc]; exact h
  · rw [if_neg hc]
    exact lookupEntry_filter idn _ e s.store h (by simpa using hlive)

/-! ## Claims -/

/-- C10: for every array and chunk size greater than zero, the chunks of
`chunkArray` concatenate back to the original array, every chunk is
non-empty of length at most `size`, and every chunk except possibly the
last has length exactly `size`. -/
theorem chunkArray_partition_spec {α : Type} (l : List α) (size : ℕ)
    (h : 0 < size) :
    (chunkArray l size).flatten = l ∧
    (∀ c ∈ chunkArray l size, c ≠ [] ∧ c.length ≤ size) ∧
    (∀ i, i + 1 < (chunkArray l size).length →
      ((chunkArray l size).getD i []).length = size) := by
  obtain ⟨m, rfl⟩ : ∃ m, size = m + 1 := ⟨size - 1, by omega⟩
  exact ⟨chunkArray_flatten l.length l (m + 1) le_rfl h,
    fun c hc => chunkArray_mem l.length l m c le_rfl hc,
    fun i hi => chunkArray_full l.length l m i le_rfl hi⟩

/-- Witness for C10 at the array `[1, 2, 3, 4, 5]` with chunk size 2. -/
theorem chunkArray_partition_spec_witness :
    0 < 2 ∧
    ((chunkArray ([1, 2, 3, 4, 5] : List ℕ) 2).flatten = [1, 2, 3, 4, 5] ∧
     (∀ c ∈ chunkArray ([1, 2, 3, 4, 5] : List ℕ) 2, c ≠ [] ∧ c.length ≤ 2) ∧
     (∀ i, i + 1 < (chunkArray ([1, 2, 3, 4, 5] : List ℕ) 2).length →
       ((chunkArray ([1, 2, 3, 4, 5] : List ℕ) 2).getD i []).length = 2)) :=
  ⟨Nat.zero_lt_two, chunkArray_partition_spec [1, 2, 3, 4, 5] 2 Nat.zero_lt_two⟩

/-- C6: `calculateAuctionStats` yields the all-zero struct on the empty
list; on every non-empty list its median is the element at index
`⌊n / 2⌋` of the ascending-sorted ratio list (characterised as the sorted
permutation of the ratios); and the specification's three-point example
evaluates to count 3, average 2.5, min 1.5, max 3.5, median 2.5, one point
below the 2.0 threshold. -/
theorem calculateAuctionStats_spec :
    calculateAuctionStats [] =
      { count := 0, avgRatio := 0, minRatio := 0, maxRatio := 0,
        medianRatio := 0, belowThreshold := 0 } ∧
    (∀ l : List AuctionDemandData, l ≠ [] →
      List.Sorted (· ≤ ·)
        ((l.map AuctionDemandData.ratio).insertionSort (· ≤ ·)) ∧
      ((l.map AuctionDemandData.ratio).insertionSort (· ≤ ·)).Perm
        (l.map AuctionDemandData.ratio) ∧
      (calculateAuctionStats l).medianRatio =
        ((l.map AuctionDemandData.ratio).insertionSort (· ≤ ·)).getD
          (((l.map AuctionDemandData.ratio).insertionSort (· ≤ ·)).length / 2)
          0) ∧
    calculateAuctionStats demandExample =
      { count := 3, avgRatio := 2.5, minRatio := 1.5, maxRatio := 3.5,
        medianRatio := 2.5, belowThreshold := 1 } := by
  refine ⟨rfl, fun l h => ⟨List.sorted_insertionSort _ _,
    List.perm_insertionSort _ _, ?_⟩, ?_⟩
  · unfold calculateAuctionStats
    rw [if_neg (by simpa using h)]
  · norm_num [calculateAuctionStats, demandExample, List.insertionSort,
      List.orderedInsert]

/-- Witness for C6's non-empty clause at the three-point example list. -/
theorem calculateAuctionStats_spec_witness :
    demandExample ≠ [] ∧
    (List.Sorted (· ≤ ·)
      ((demandExample.map AuctionDemandData.ratio).insertionSort (· ≤ ·)) ∧
     ((demandExample.map AuctionDemandData.ratio).insertionSort (· ≤ ·)).Perm
       (demandExample.map AuctionDemandData.ratio) ∧
     (calculateAuctionStats demandExample).medianRatio =
       ((demandExample.map AuctionDemandData.ratio).insertionSort (· ≤ ·)).getD
         (((demandExample.map AuctionDemandData.ratio).insertionSort
            (· ≤ ·)).length / 2) 0) :=
  ⟨by decide, calculateAuctionStats_spec.2.1 demandExample (by decide)⟩

/-- C2 counterexample: on `"Bond Note"` the source checks note before
bond and answers `NOTE`, while the claimed rule order (bond before note)
answers `BOND`. -/
theorem normalizeSecurityType_order_counterexample :
    normalizeSecurityType (some "Bond Note") = SecurityType.NOTE ∧
    normalizeSecurityTypeClaimOrder (some "Bond Note") = SecurityType.BOND ∧
    SecurityType.NOTE ≠ SecurityType.BOND := by
  decide

/-- C2 (amended): both classifiers are case-insensitive ordered rule
tables — for securities in the order bill, tips/inflation, floating/frn,
note, bond (note before bond); for auctions in the order bill,
tips/inflation, floating/frn, cmb/cash management, bond, note — an input
matching no rule yields `OTHER` (securities) and `NOTE` (auctions), and
null or empty input yields the same defaults. -/
theorem normalizeType_rule_table_spec :
    (∀ d, normalizeSecurityType d =
       classifyRules securityRulesSourceOrder SecurityType.OTHER d) ∧
    (∀ d, normalizeAuctionSecurityType d =
       classifyRules auctionRulesSourceOrder AuctionSecurityType.NOTE d) ∧
    (∀ s : String,
      includesSub (lowerStr s.data) "bill" = false →
      includesSub (lowerStr s.data) "tips" = false →
      includesSub (lowerStr s.data) "inflation" = false →
      includesSub (lowerStr s.data) "floating" = false →
      includesSub (lowerStr s.data) "frn" = false →
      includesSub (lowerStr s.data) "note" = false →
      includesSub (lowerStr s.data) "bond" = false →
      normalizeSecurityType (some s) = SecurityType.OTHER) ∧
    (∀ s : String,
      includesSub (lowerStr s.data) "bill" = false →
      includesSub (lowerStr s.data) "tips" = false →
      includesSub (lowerStr s.data) "inflation" = false →
      includesSub (lowerStr s.data) "floating" = false →
      includesSub (lowerStr s.data) "frn" = false →
      includesSub (lowerStr s.data) "cmb" = false →
      includesSub (lowerStr s.data) "cash management" = false →
      includesSub (lowerStr s.data) "bond" = false →
      includesSub (lowerStr s.data) "note" = false →
      normalizeAuctionSecurityType (some s) = AuctionSecurityType.NOTE) ∧
    normalizeSecurityType none = SecurityType.OTHER ∧
    normalizeAuctionSecurityType none = AuctionSecurityType.NOTE ∧
    normalizeSecurityType (some "") = SecurityType.OTHER ∧
    normalizeAuctionSecurityType (some "") = AuctionSecurityType.NOTE := by
  refine ⟨fun d => ?_, fun d => ?_, fun s h1 h2 h3 h4 h5 h6 h7 => ?_,
    fun s h1 h2 h3 h4 h5 h6 h7 h8 h9 => ?_, rfl, rfl, rfl, rfl⟩
  · cases d with
    | none => rfl
    | some s => rfl
  · cases d with
    | none => rfl
    | some s => rfl
  · simp [normalizeSecurityType, h1, h2, h3, h4, h5, h6, h7]
  · simp [normalizeAuctionSecurityType, h1, h2, h3, h4, h5, h6, h7, h8, h9]

/-- Witness for C2's unmatched-input clauses at the string
`"Unknown Thing"`. -/
theorem normalizeType_rule_table_spec_witness :
    includesSub (lowerStr "Unknown Thing".data) "bill" = false ∧
    normalizeSecurityType (some "Unknown Thing") = SecurityType.OTHER ∧
    normalizeAuctionSecurityType (some "Unknown Thing") =
      AuctionSecurityType.NOTE :=
  ⟨by decide,
   normalizeType_rule_table_spec.2.2.1 "Unknown Thing" (by decide) (by decide)
     (by decide) (by decide) (by decide) (by decide) (by decide),
   normalizeType_rule_table_spec.2.2.2.1 "Unknown Thing" (by decide)
     (by decide) (by decide) (by decide) (by decide) (by decide) (by decide)
     (by decide) (by decide)⟩

/-- C1 counterexample: a security with the falsy maturity year `0` and
outstanding amount 100 is skipped by the aggregator (`!maturityYear`), so
for the range `[-1, 1]` the bucket totals sum to 0 while the claimed sum
over in-range securities with non-null maturity year is 100. -/
theorem aggregateMaturityWall_claim_counterexample :
    sumTotals (aggregateMaturityWall 2025 [secYearZero] (some (-1)) (some 1)) = 0 ∧
    claimedMaturitySum [secYearZero] (-1) 1 = 100 ∧
    (0 : ℚ) ≠ 100 := by
  refine ⟨?_, ?_, by norm_num⟩
  · simp +decide [sumTotals, aggregateMaturityWall, jsOrInt, yearRange,
      buildBucket, bucketInit, bucketAdd, secInBucket, secYearZero,
      List.range_succ, Function.comp, Int.toNat_ofNat]
  · simp +decide [claimedMaturitySum, claimedInRange, secYearZero, List.filter]

/-- C1 (amended): for nonzero range bounds `y0, y1`, the bucket totals of
`aggregateMaturityWall` sum to the sum of `outstandingAmount` over exactly
the securities whose `maturityYear` is non-null, nonzero (`0` is falsy and
always skipped), and within `[y0, y1]`. -/
theorem aggregateMaturityWall_total_amended (cy : ℤ)
    (secs : List CleanedSecurity) (y0 y1 : ℤ) (h0 : y0 ≠ 0) (h1 : y1 ≠ 0) :
    sumTotals (aggregateMaturityWall cy secs (some y0) (some y1))
      = codeMaturitySum secs y0 y1 := by
  unfold sumTotals aggregateMaturityWall codeMaturitySum
  simp only [jsOrInt, if_neg h0, if_neg h1]
  rw [List.map_map]
  have hb : (MaturityWallData.total ∘ buildBucket secs y0 y1)
      = fun y => ((secs.map
          (fun s => if secInBucket y0 y1 y s then s.outstandingAmount
                    else 0)).sum) :=
    funext (fun y => buildBucket_total secs y0 y1 y)
  rw [hb, sum_swap, sum_filter_ite]
  simp only [sum_bucket_indicator]

/-- Witness for C1 (amended) at one 2030 note over the range
`[2026, 2036]`. -/
theorem aggregateMaturityWall_total_amended_witness :
    (2026 : ℤ) ≠ 0 ∧ (2036 : ℤ) ≠ 0 ∧
    sumTotals (aggregateMaturityWall 2025 [secYear2030] (some 2026) (some 2036))
      = codeMaturitySum [secYear2030] 2026 2036 :=
  ⟨by decide, by decide,
   aggregateMaturityWall_total_amended 2025 [secYear2030] 2026 2036
     (by decide) (by decide)⟩

/-- C7: with limit 3 and interval 1000 ms, four calls for the same
identifier within one window are allowed, allowed, allowed, rejected in
that order, the rejection reports the remaining time until the window
resets, and a call after the interval has elapsed since the window start
opens a fresh window with count restarted at 1. -/
theorem checkRateLimit_window_spec
    (idn : String) (s0 s1 s2 s3 s4 s5 : RateLimitState)
    (r1 r2 r3 r4 r5 : RateLimitResult)
    (t0 t1 t2 t3 t4 : ℤ)
    (hfresh : lookupEntry idn s0.store = none)
    (h01 : t0 ≤ t1) (h12 : t1 ≤ t2) (h23 : t2 ≤ t3) (h34 : t3 ≤ t4)
    (hw1 : t1 - t0 ≤ 1000) (hw2 : t2 - t0 ≤ 1000) (hw3 : t3 - t0 ≤ 1000)
    (hexp : t4 - t0 > 1000)
    (e1 : checkRateLimit t0 idn ⟨1000, 3⟩ s0 = (r1, s1))
    (e2 : checkRateLimit t1 idn ⟨1000, 3⟩ s1 = (r2, s2))
    (e3 : checkRateLimit t2 idn ⟨1000, 3⟩ s2 = (r3, s3))
    (e4 : checkRateLimit t3 idn ⟨1000, 3⟩ s3 = (r4, s4))
    (e5 : checkRateLimit t4 idn ⟨1000, 3⟩ s4 = (r5, s5)) :
    r1 = ⟨true, 2, 1000⟩ ∧ r2 = ⟨true, 1, 1000 - (t1 - t0)⟩ ∧
    r3 = ⟨true, 0, 1000 - (t2 - t0)⟩ ∧
    r4 = ⟨false, 0, 1000 - (t3 - t0)⟩ ∧
    r5 = ⟨true, 2, 1000⟩ ∧ lookupEntry idn s5.store = some ⟨1, t4⟩ := by
  rw [checkRateLimit_fresh t0 idn ⟨1000, 3⟩ s0 hfresh] at e1
  injection e1 with hr1 hs1
  subst hr1
  subst hs1
  rw [checkRateLimit_increment t1 idn ⟨1000, 3⟩ _ ⟨1, t0⟩
    (lookup_setEntry_self idn ⟨1, t0⟩ _)
    (by show ¬(t1 - t0 > (1000 : ℤ)); omega)
    (by show ¬((1 : ℤ) ≥ (3 : ℤ)); decide)] at e2
  injection e2 with hr2 hs2
  subst hr2
  subst hs2
  rw [checkRateLimit_increment t2 idn ⟨1000, 3⟩ _ ⟨2, t0⟩
    (lookup_setEntry_self idn ⟨2, t0⟩ _)
    (by show ¬(t2 - t0 > (1000 : ℤ)); omega)
    (by show ¬((2 : ℤ) ≥ (3 : ℤ)); decide)] at e3
  injection e3 with hr3 hs3
  subst hr3
  subst hs3
  rw [checkRateLimit_reject t3 idn ⟨1000, 3⟩ _ ⟨3, t0⟩
    (lookup_setEntry_self idn ⟨3, t0⟩ _)
    (by show ¬(t3 - t0 > (1000 : ℤ)); omega)
    (by show (3 : ℤ) ≥ (3 : ℤ); decide)] at e4
  injection e4 with hr4 hs4
  subst hr4
  subst hs4
  rw [checkRateLimit_expired t4 idn ⟨1000, 3⟩ _ ⟨3, t0⟩
    (lookup_cleanup t3 1000 _ idn ⟨3, t0⟩ (lookup_setEntry_self idn ⟨3, t0⟩ _)
      (by show ¬(t3 - t0 > (1000 : ℤ)); omega))
    (by show t4 - t0 > (1000 : ℤ); omega)] at e5
  injection e5 with hr5 hs5
  subst hr5
  subst hs5
  exact ⟨rfl, rfl, rfl, rfl, rfl, lookup_setEntry_self idn _ _⟩


/-- Witness for C7 at identifier `"x"`, an empty initial store, and call
times 0, 100, 200, 300 and 1500 ms. -/
theorem checkRateLimit_window_spec_witness :
    lookupEntry "x" (RateLimitState.mk [] 0).store = none ∧
    ((checkRateLimit 0 "x" ⟨1000, 3⟩ ⟨[], 0⟩).1 = ⟨true, 2, 1000⟩ ∧
     (checkRateLimit 100 "x" ⟨1000, 3⟩
       (checkRateLimit 0 "x" ⟨1000, 3⟩ ⟨[], 0⟩).2).1 = ⟨true, 1, 1000 - (100 - 0)⟩ ∧
     (checkRateLimit 200 "x" ⟨1000, 3⟩
       (checkRateLimit 100 "x" ⟨1000, 3⟩
         (checkRateLimit 0 "x" ⟨1000, 3⟩ ⟨[], 0⟩).2).2).1 = ⟨true, 0, 1000 - (200 - 0)⟩ ∧
     (checkRateLimit 300 "x" ⟨1000, 3⟩
       (checkRateLimit 200 "x" ⟨1000, 3⟩
         (checkRateLimit 100 "x" ⟨1000, 3⟩
           (checkRateLimit 0 "x" ⟨1000, 3⟩ ⟨[], 0⟩).2).2).2).1 = ⟨false, 0, 1000 - (300 - 0)⟩ ∧
     (checkRateLimit 1500 "x" ⟨1000, 3⟩
       (checkRateLimit 300 "x" ⟨1000, 3⟩
         (checkRateLimit 200 "x" ⟨1000, 3⟩
           (checkRateLimit 100 "x" ⟨1000, 3⟩
             (checkRateLimit 0 "x" ⟨1000, 3⟩ ⟨[], 0⟩).2).2).2).2).1 = ⟨true, 2, 1000⟩ ∧
     lookupEntry "x" (checkRateLimit 1500 "x" ⟨1000, 3⟩
       (checkRateLimit 300 "x" ⟨1000, 3⟩
         (checkRateLimit 200 "x" ⟨1000, 3⟩
           (checkRateLimit 100 "x" ⟨1000, 3⟩
             (checkRateLimit 0 "x" ⟨1000, 3⟩ ⟨[], 0⟩).2).2).2).2).2.store = some ⟨1, 1500⟩) :=
  ⟨rfl,
   checkRateLimit_window_spec "x" ⟨[], 0⟩ _ _ _ _ _ _ _ _ _ _ 0 100 200 300 1500
     rfl (by decide) (by decide) (by decide) (by decide) (by decide) (by decide)
     (by decide) (by decide) rfl rfl rfl rfl rfl⟩

/-- C5: with authorization and a configured store, the five ingestion
steps run in the fixed order debt, securities, auctions, indicators,
aggregates; a step that throws is recorded as that step failing with
`Error: …` while every other step outcome depends only on that step; and
the per-step report is carried by the response whether the terminal
log write succeeds (200) or throws (500). -/
theorem ingestGET_step_isolation_spec
    (ls : Except String Unit) (d : Except String (Option String))
    (se au : Except String (Option (String × ℕ)))
    (ind : Except String (Option String)) (ag : Except String Unit)
    (le : Except String Unit) :
    (ingestGET true true ls d se au ind ag le).2
      = [StepId.debt, .securities, .auctions, .indicators, .aggregates] ∧
    (∃ r : IngestResults,
      ((ingestGET true true ls d se au ind ag le).1 = .completed r ∨
       (ingestGET true true ls d se au ind ag le).1 = .failed r) ∧
      r.debt = runStep d ∧ r.securities = runStepC se ∧
      r.auctions = runStepC au ∧ r.indicators = runStep ind ∧
      r.aggregates = runStepAgg ag) ∧
    (∀ e, runStep (.error e) = ⟨false, "Error: " ++ e⟩) ∧
    (∀ e, runStepC (.error e) = ⟨false, "Error: " ++ e, 0⟩) ∧
    (∀ e, runStepAgg (.error e) = ⟨false, "Error: " ++ e⟩) := by
  refine ⟨?_, ?_, fun e => rfl, fun e => rfl, fun e => rfl⟩
  · cases le <;> rfl
  · refine ⟨IngestResults.mk (runStep d) (runStepC se) (runStepC au)
        (runStep ind) (runStepAgg ag), ?_, rfl, rfl, rfl, rfl, rfl⟩
    cases le with
    | ok u => left; rfl
    | error e => right; rfl

/-- C9: the health route answers with a metrics object for every store
state; no store, a throwing query, and an empty result all yield the
hardcoded default metrics; a stored row is served with each falsy (null)
field individually filled from those defaults. -/
theorem healthGET_never_errors_spec (today : String) :
    (∀ db, ∃ m, healthGET today db = HealthResponse.ok m) ∧
    healthGET today none = .ok (DEFAULT_METRICS today) ∧
    healthGET today (some (Except.error ())) = .ok (DEFAULT_METRICS today) ∧
    healthGET today (some (Except.ok [])) = .ok (DEFAULT_METRICS today) ∧
    (∀ (latest : IndicatorRow) (rows : List IndicatorRow),
      healthGET today (some (Except.ok (latest :: rows))) = .ok
        { debtToGdp := fillMetric latest.debtToGdpRatio (DEFAULT_METRICS today).debtToGdp
          interestExpense := fillMetric latest.interestExpense (DEFAULT_METRICS today).interestExpense
          averageInterestRate := fillMetric latest.averageInterestRate (DEFAULT_METRICS today).averageInterestRate
          yieldCurveSpread := fillMetric latest.yieldCurveSpread (DEFAULT_METRICS today).yieldCurveSpread
          realYield10y := fillMetric latest.realYield10y (DEFAULT_METRICS today).realYield10y
          breakeven10y := fillMetric latest.breakeven10y (DEFAULT_METRICS today).breakeven10y
          lastUpdated := latest.recordDate }) ∧
    (∀ v : Option ℚ, fillMetric none v = v) := by
  refine ⟨?_, rfl, rfl, rfl, fun latest rows => rfl, fun v => rfl⟩
  intro db
  match db with
  | none => exact ⟨_, rfl⟩
  | some (.error ()) => exact ⟨_, rfl⟩
  | some (.ok []) => exact ⟨_, rfl⟩
  | some (.ok (latest :: rows)) => exact ⟨_, rfl⟩


lemma mantissaVal_nonneg (ip fp : List Char) : 0 ≤ mantissaVal ip fp := by
  unfold mantissaVal
  positivity

lemma parseUnsigned_nonneg (l : List Char) (q : ℚ) (h : parseUnsigned l = some q) :
    0 ≤ q := by
  unfold parseUnsigned at h
  repeat' split at h
  all_goals
    first
      | (injection h with h2
         rw [← h2]
         exact mul_nonneg (mantissaVal_nonneg _ _)
           (le_of_lt (zpow_pos (by norm_num) _)))
      | exact absurd h (by simp)

lemma jsParseFloatL_nonneg (l : List Char) (hm : ('-' : Char) ∉ l) (q : ℚ)
    (h : jsParseFloatL l = some q) : 0 ≤ q := by
  unfold jsParseFloatL at h
  have hm2 : ('-' : Char) ∉ l.dropWhile isWsChar :=
    fun hx => hm ((List.dropWhile_sublist isWsChar).subset hx)
  split at h
  · rename_i heq
    exact absurd (heq ▸ List.mem_cons_self _ _) hm2
  · exact parseUnsigned_nonneg _ q h
  · exact parseUnsigned_nonneg _ q h


lemma parseAmount_nonneg (v : Option String) (hm : minusFree v = true) (q : ℚ)
    (h : parseAmount v = some q) : 0 ≤ q := by
  unfold parseAmount at h
  by_cases hg : amountGuard v = true
  · rw [if_pos hg] at h; cases h
  · rw [if_neg hg] at h
    match v with
    | none => cases h
    | some s =>
        refine jsParseFloatL_nonneg _ ?_ q h
        intro hx
        have hmem : ('-' : Char) ∈ s.data := (List.mem_filter.mp hx).1
        unfold minusFree at hm
        simp only [Bool.not_eq_true', List.any_eq_false, decide_eq_false_iff_not] at hm
        exact hm '-' hmem rfl

/-- C3 counterexample: `parseAmount` keeps a leading minus sign, so an
auction record with `offering_amt = "-100"` cleans to an offering amount
of −100, a negative monetary value. -/
theorem cleanAuction_negative_amount_counterexample :
    (cleanAuctionRecord rawAuctionNegativeAmt).map CleanedAuction.offeringAmount
      = some (some (-100)) ∧ (-100 : ℚ) < 0 := by
  constructor
  · simp +decide [cleanAuctionRecord, rawAuctionNegativeAmt, parseNumber,
      parseAmount, amountGuard, jsTrim, jsParseFloatL, jsParseFloat,
      parseUnsigned, spanDigits, mantissaVal, digitsVal, digitVal, expVal,
      isWsChar, isDigitChar]
  · norm_num


/-- C3 (amended): every monetary amount field of a cleaned record is the
`parseAmount` image of its raw string — hence `null` or a parsed number —
and it is non-negative whenever the raw string contains no minus sign;
`outstandingAmount` of a kept security is strictly positive
unconditionally. -/
theorem cleaned_amounts_nonneg_amended :
    (∀ (v : Option String) (q : ℚ),
       minusFree v = true → parseAmount v = some q → 0 ≤ q) ∧
    (∀ (raw : RawMarketSecurityRecord) (c : CleanedSecurity),
       cleanSecurityRecord raw = some c → 0 < c.outstandingAmount) ∧
    (∀ (raw : RawAuctionRecord) (c : CleanedAuction),
       cleanAuctionRecord raw = some c →
         c.offeringAmount = parseAmount raw.offering_amt ∧
         c.acceptedAmount = parseAmount raw.accepted_amt ∧
         c.totalTendersAccepted = parseAmount raw.total_tendered ∧
         c.directBidderAccepted = parseAmount raw.direct_bidder_accepted_amt ∧
         c.indirectBidderAccepted = parseAmount raw.indirect_bidder_accepted_amt ∧
         c.primaryDealerAccepted = parseAmount raw.primary_dealer_accepted_amt) ∧
    (∀ (raw : RawDebtRecord) (c : CleanedDebtSnapshot),
       cleanDebtRecord raw = some c →
         parseAmount raw.tot_pub_debt_out_amt = some c.totalPublicDebt ∧
         c.debtHeldByPublic = parseAmount raw.debt_held_public_amt ∧
         c.intragovernmentalHoldings = parseAmount raw.intragov_hold_amt) := by
  refine ⟨fun v q hm h => parseAmount_nonneg v hm q h, ?_, ?_, ?_⟩
  · intro raw c hc
    cases hp : parseAmount raw.outstanding_amt with
    | none => simp [cleanSecurityRecord, hp] at hc
    | some a =>
        by_cases ha : a ≤ 0
        · simp [cleanSecurityRecord, hp, if_pos ha] at hc
        · simp only [cleanSecurityRecord, hp, if_neg ha, Option.some.injEq] at hc
          rw [← hc]
          exact lt_of_not_ge (by simpa using ha)
  · intro raw c hc
    cases hp : parseNumber raw.bid_to_cover_ratio with
    | none => simp [cleanAuctionRecord, hp] at hc
    | some r =>
        simp only [cleanAuctionRecord, hp, Option.some.injEq] at hc
        rw [← hc]
        exact ⟨rfl, rfl, rfl, rfl, rfl, rfl⟩
  · intro raw c hc
    cases hp : parseAmount raw.tot_pub_debt_out_amt with
    | none => simp [cleanDebtRecord, hp] at hc
    | some a =>
        simp only [cleanDebtRecord, hp, Option.some.injEq] at hc
        rw [← hc]
        exact ⟨rfl, rfl, rfl⟩

/-- Witness for C3 (amended) at the comma-separated amount `"1,250"`. -/
theorem cleaned_amounts_nonneg_amended_witness :
    minusFree (some "1,250") = true ∧
    parseAmount (some "1,250") = some 1250 ∧
    (0 : ℚ) ≤ 1250 :=
  ⟨by decide,
   by simp +decide [parseAmount, amountGuard, jsTrim, jsParseFloatL,
     parseUnsigned, spanDigits, mantissaVal, digitsVal, digitVal, expVal,
     isWsChar, isDigitChar],
   cleaned_amounts_nonneg_amended.1 (some "1,250") 1250 (by decide)
     (by simp +decide [parseAmount, amountGuard, jsTrim, jsParseFloatL,
       parseUnsigned, spanDigits, mantissaVal, digitsVal, digitVal, expVal,
       isWsChar, isDigitChar])⟩

/-- C8: `cleanAuctionRecord` (a total function, so it never throws) drops
a raw auction exactly when its bid-to-cover ratio is unparseable; the
sentinel `"N/A"` record is dropped, and the two-record batch keeps exactly
the one valid record, whose ratio is the parsed 2.56 rather than a zero
default. -/
theorem cleanAuctionRecords_drop_spec :
    (∀ raw : RawAuctionRecord,
       cleanAuctionRecord raw = none ↔ parseNumber raw.bid_to_cover_ratio = none) ∧
    cleanAuctionRecord rawAuctionNA = none ∧
    cleanAuctionRecords [rawAuctionNA, rawAuctionValid] =
      [{ auctionDate := some "2024-02-07"
         issueDate := none
         maturityDate := none
         securityType := .NOTE
         securityTypeRaw := "Note"
         securityTerm := some "10-Year"
         cusip := some "91282CJZ5"
         bidToCoverRatio := some 2.56
         highYield := some 4.093
         highDiscountRate := none
         offeringAmount := some 42000000000
         acceptedAmount := some 42000000000
         totalTendersAccepted := none
         directBidderAccepted := none
         indirectBidderAccepted := none
         primaryDealerAccepted := none }] := by
  refine ⟨?_, ?_, ?_⟩
  · intro raw
    cases hp : parseNumber raw.bid_to_cover_ratio <;> simp [cleanAuctionRecord, hp]
  · simp +decide [cleanAuctionRecord, rawAuctionNA, parseNumber, amountGuard]
  · norm_num +decide [cleanAuctionRecords, cleanAuctionRecord, rawAuctionNA,
      rawAuctionValid, parseNumber, parseAmount, amountGuard, jsTrim,
      jsParseFloatL, jsParseFloat, parseUnsigned, spanDigits, mantissaVal,
      digitsVal, digitVal, expVal, isWsChar, isDigitChar, normalizeDate,
      isValidIsoDate, daysInMonth, normalizeAuctionSecurityType, strFalsy,
      jsOrStr, jsOrNull, jsOrEmpty, lowerStr, lowerChar, includesSub, hasInfix,
      show Char.toNat '0' = 48 from rfl, show Char.toNat '1' = 49 from rfl,
      show Char.toNat '2' = 50 from rfl, show Char.toNat '3' = 51 from rfl,
      show Char.toNat '4' = 52 from rfl, show Char.toNat '5' = 53 from rfl,
      show Char.toNat '6' = 54 from rfl, show Char.toNat '7' = 55 from rfl,
      show Char.toNat '8' = 56 from rfl, show Char.toNat '9' = 57 from rfl,
      List.filterMap]

/-- C4 counterexample: in the auctions route a store driver exception is
not caught by an inner boundary — with the upstream healthy, the query
answers with a 500 server error instead of a `source = "api"` result;
the same upstream succeeds when the store merely misses. -/
theorem resolver_fallback_counterexample :
    auctionsGET ["NOTE"] "2024-01-01" (Except.error ())
      (Except.ok [rawAuctionValid]) = AuctionsResponse.serverError ∧
    (∃ data stats, auctionsGET ["NOTE"] "2024-01-01" (Except.ok [])
      (Except.ok [rawAuctionValid]) = AuctionsResponse.ok data stats Source.api) := by
  exact ⟨rfl, ⟨_, _, rfl⟩⟩

/-- C4 (amended): the maturity-wall route serves the store rows tagged
`database` on a hit and falls back to the upstream pipeline tagged `api`
on a store miss, empty result, or driver exception; the auctions route
serves matching rows tagged `database`, falls back to the upstream
pipeline tagged `api` on a store miss (no rows, or none of the requested
types), but answers a 500 error when the store driver throws. -/
theorem resolver_fallback_amended :
    (∀ (cy : ℤ) (rate : RateLimitResult) (yp : Option String) (years : ℤ)
       (secsQ : String → Except Unit (List DbSecurityRow))
       (upstream : Except Unit (List RawMarketSecurityRecord))
       (latestDate : String) (dates : List String)
       (r : DbSecurityRow) (rs : List DbSecurityRow),
       rate.allowed = true → validateYears yp = ⟨true, years⟩ →
       secsQ latestDate = .ok (r :: rs) →
       maturityWallGET cy rate yp true (.ok (latestDate :: dates)) secsQ upstream
         = .ok (aggregateMaturityWall cy ((r :: rs).map dbRowToCleaned)
             (some (cy + 1)) (some (cy + 1 + years)))
             (some latestDate) ((r :: rs).map dbRowToCleaned).length .database) ∧
    (∀ (cy : ℤ) (rate : RateLimitResult) (yp : Option String) (years : ℤ)
       (dbConfigured : Bool) (latestQ : Except Unit (List String))
       (secsQ : String → Except Unit (List DbSecurityRow))
       (r : RawMarketSecurityRecord) (rs : List RawMarketSecurityRecord),
       rate.allowed = true → validateYears yp = ⟨true, years⟩ →
       (dbConfigured = false ∨ latestQ = .error () ∨ latestQ = .ok [] ∨
        (∃ d ds, latestQ = .ok (d :: ds) ∧
          (secsQ d = .error () ∨ secsQ d = .ok []))) →
       maturityWallGET cy rate yp dbConfigured latestQ secsQ (.ok (r :: rs))
         = .ok (aggregateMaturityWall cy
             (cleanSecurityRecords
               ((r :: rs).filter (fun x => x.record_date = r.record_date)))
             (some (cy + 1)) (some (cy + 1 + years)))
             r.record_date
             (cleanSecurityRecords
               ((r :: rs).filter (fun x => x.record_date = r.record_date))).length
             .api) ∧
    (∀ (types : List String) (startDate : String)
       (upstream : Except Unit (List RawAuctionRecord))
       (a : DbAuctionRow) (rows : List DbAuctionRow),
       (a :: rows).filter
           (fun x => types.contains (auctionTypeStr x.securityType)) ≠ [] →
       auctionsGET types startDate (.ok (a :: rows)) upstream
         = .ok (auctionsDbPoints ((a :: rows).filter
               (fun x => types.contains (auctionTypeStr x.securityType))))
             (calculateAuctionStats (auctionsDbPoints ((a :: rows).filter
               (fun x => types.contains (auctionTypeStr x.securityType)))))
             .database) ∧
    (∀ (types : List String) (startDate : String) (rows : List DbAuctionRow)
       (r : RawAuctionRecord) (rs : List RawAuctionRecord),
       (rows = [] ∨ rows.filter
           (fun x => types.contains (auctionTypeStr x.securityType)) = []) →
       auctionsGET types startDate (.ok rows) (.ok (r :: rs))
         = .ok (aggregateAuctionDemand (cleanAuctionRecords (r :: rs)) types
               (some startDate))
             (calculateAuctionStats
               (aggregateAuctionDemand (cleanAuctionRecords (r :: rs)) types
                 (some startDate)))
             .api) ∧
    (∀ (types : List String) (startDate : String)
       (upstream : Except Unit (List RawAuctionRecord)),
       auctionsGET types startDate (.error ()) upstream
         = .serverError) := by
  refine ⟨?_, ?_, ?_, ?_, fun types startDate upstream => rfl⟩
  · intro cy rate yp years secsQ upstream latestDate dates r rs hr hv hs
    unfold maturityWallGET
    rw [hr, hv]
    simp only [Bool.not_true, Bool.false_eq_true, if_false, if_true, hs]
  · intro cy rate yp years dbConfigured latestQ secsQ r rs hr hv hmiss
    unfold maturityWallGET
    rw [hr, hv]
    simp only [Bool.not_true, Bool.false_eq_true, if_false]
    have hdb :
        (if dbConfigured then
          (match latestQ with
           | .error _ => none
           | .ok [] => none
           | .ok (latestDate :: _) =>
              match secsQ latestDate with
              | .error _ => none
              | .ok [] => none
              | .ok (q :: qs) =>
                  some (MaturityWallResponse.ok
                    (aggregateMaturityWall cy ((q :: qs).map dbRowToCleaned)
                      (some (cy + 1)) (some (cy + 1 + years)))
                    (some latestDate) ((q :: qs).map dbRowToCleaned).length
                    .database))
         else none) = (none : Option MaturityWallResponse) := by
      rcases hmiss with h | h | h | ⟨d, ds, hq, hsd⟩
      · rw [h]; rfl
      · rw [h]; cases dbConfigured <;> rfl
      · rw [h]; cases dbConfigured <;> rfl
      · rw [hq]
        rcases hsd with hsd | hsd <;> cases dbConfigured <;> simp [hsd]
    rw [hdb]
    rfl
  · intro types startDate upstream a rows hne
    unfold auctionsGET
    simp only [List.isEmpty_cons, Bool.false_eq_true, if_false]
    rw [if_neg (by simpa using hne)]
  · intro types startDate rows r rs hmiss
    unfold auctionsGET
    rcases hmiss with h | h
    · subst h
      rfl
    · match rows with
      | [] => rfl
      | b :: bs =>
          simp only [List.isEmpty_cons, Bool.false_eq_true, if_false]
          rw [if_pos (by simpa using h)]


/-- Witness for C4 (amended): a seeded store answers `database` for the
maturity wall, and an empty store with a healthy upstream answers `api`
for auctions. -/
theorem resolver_fallback_amended_witness :
    (⟨true, 59, 60000⟩ : RateLimitResult).allowed = true ∧
    validateYears none = ⟨true, 10⟩ ∧
    maturityWallGET 2025 ⟨true, 59, 60000⟩ none true (.ok ["2025-06-30"])
        (fun _ => .ok [dbSecRow]) (.error ())
      = .ok (aggregateMaturityWall 2025 ([dbSecRow].map dbRowToCleaned)
          (some (2025 + 1)) (some (2025 + 1 + 10)))
          (some "2025-06-30") ([dbSecRow].map dbRowToCleaned).length
          .database ∧
    auctionsGET ["NOTE"] "2024-01-01" (.ok []) (.ok [rawAuctionValid])
      = .ok (aggregateAuctionDemand (cleanAuctionRecords [rawAuctionValid])
          ["NOTE"] (some "2024-01-01"))
          (calculateAuctionStats
            (aggregateAuctionDemand (cleanAuctionRecords [rawAuctionValid])
              ["NOTE"] (some "2024-01-01")))
          .api :=
  ⟨rfl, rfl,
   resolver_fallback_amended.1 2025 ⟨true, 59, 60000⟩ none 10 (fun _ => .ok [dbSecRow])
     (.error ()) "2025-06-30" [] dbSecRow [] rfl rfl rfl,
   resolver_fallback_amended.2.2.2.1 ["NOTE"] "2024-01-01" [] rawAuctionValid []
     (Or.inl rfl)⟩

end SovereignWatch
